import Mathlib

/-!
Verification of the actuator coordination engine of the Svakom Sam Neo
MCP control server (TypeScript sources under `src/`).

Shallow embedding conventions:

* JavaScript numbers are modelled as `ℚ` (exact rationals; the code performs
  only `+ - * /`, `Math.floor` and `Math.sin` on them).
* A device interaction is a `Cmd`; an execution produces the ordered list of
  commands/suspensions it issued (the trace) together with an
  `Except String` result.  This models the sequential `async`/`await`
  control flow of the handlers: `await`ed device calls either resolve or
  reject, a rejection propagates like an exception to the nearest
  `try`/`catch`.
* The device itself is abstracted as an oracle `dev : Cmd → Option String`:
  `none` means the command is accepted, `some r` means it is rejected and
  `r` is the string form of the rejection reason.  `setTimeout`
  suspensions never fail and are recorded as `Cmd.sleep`.
* `Math.sin(x * Math.PI)` is abstracted as a parameter `sinpi : ℚ → ℚ`
  (an abstract library function applied to the exact argument the code
  computes).
* Thrown `Error` values are carried as their message strings; the response
  formatters interpolate them after an `"Error: "` label as the templates
  in the source do.
-/

namespace SamNeo

/-- `SamNeoVersion` from `src/src/main.ts` (the capability profile:
`ORIGINAL` is the spec's `Legacy`, `NEO2_SERIES` the spec's `IndexedDual`). -/
inductive SamNeoVersion where
  | ORIGINAL
  | NEO2_SERIES
deriving DecidableEq, Repr

/-- Actuator kinds used by the tools (`ActuatorType` values of the buttplug
protocol that appear in the source). -/
inductive ActType where
  | Vibrate
  | Constrict
  | Inflate
deriving DecidableEq, Repr

/-- One observable device interaction of a tool invocation:
`scalar`/`linear`/`vibrate`/`stop` are the buttplug client calls issued by
the source (`device.scalar`, `device.linear`, `device.vibrate`,
`device.stop`), `sleep` is an awaited `setTimeout` suspension. -/
inductive Cmd where
  | scalar (index : ℕ) (value : ℚ) (actuator : ActType)
  | linear (value : ℚ) (durationMs : ℚ)
  | vibrate (values : List ℚ)
  | stop
  | sleep (ms : ℚ)
deriving DecidableEq, Repr

/-- A device oracle: `none` = the command is accepted, `some r` = the
command is rejected with stringified reason `r`. -/
abbrev Dev := Cmd → Option String

/-- Result of running a piece of handler code: the trace of issued
commands/suspensions, and either a value or the propagating thrown error. -/
abbrev Proc (α : Type) := List Cmd × Except String α

namespace Proc

/-- Return a value, issuing nothing. -/
def ok {α : Type} (a : α) : Proc α := ([], Except.ok a)

/-- Throw an error, issuing nothing (models `throw new Error msg`). -/
def fail {α : Type} (msg : String) : Proc α := ([], Except.error msg)

/-- Sequencing of two handler fragments: the second runs only when the
first did not throw; traces concatenate. -/
def bind {α β : Type} (x : Proc α) (f : α → Proc β) : Proc β :=
  match x.2 with
  | Except.error e => (x.1, Except.error e)
  | Except.ok a => (x.1 ++ (f a).1, (f a).2)

/-- An awaited device call: records the command; rejection propagates as a
thrown error whose message is the oracle's reason. -/
def issue (dev : Dev) (c : Cmd) : Proc Unit :=
  match dev c with
  | none => ([c], Except.ok ())
  | some r => ([c], Except.error r)

/-- An awaited `setTimeout`: records the suspension, never fails. -/
def sleep (ms : ℚ) : Proc Unit := ([Cmd.sleep ms], Except.ok ())

/-- A sequential `for`-loop whose body returns no value. -/
def forList {α : Type} (xs : List α) (f : α → Proc Unit) : Proc Unit :=
  match xs with
  | [] => Proc.ok ()
  | a :: rest => Proc.bind (f a) (fun _ => forList rest f)

/-- A sequential `for`-loop threading a mutable local through the body
(used for the `successfulApproach` variable of the vacuum tool). -/
def foldList {σ α : Type} (xs : List α) (init : σ) (f : σ → α → Proc σ) : Proc σ :=
  match xs with
  | [] => Proc.ok init
  | a :: rest => Proc.bind (f init a) (fun s => foldList rest s f)

@[simp] theorem bind_mk_ok {α β : Type} (tr : List Cmd) (a : α) (f : α → Proc β) :
    Proc.bind (tr, Except.ok a) f = (tr ++ (f a).1, (f a).2) := rfl

@[simp] theorem bind_mk_error {α β : Type} (tr : List Cmd) (e : String) (f : α → Proc β) :
    Proc.bind (tr, Except.error e) f = (tr, Except.error e) := rfl

@[simp] theorem ok_def {α : Type} (a : α) : Proc.ok a = (([] : List Cmd), Except.ok a) := rfl

@[simp] theorem fail_def {α : Type} (msg : String) :
    (Proc.fail msg : Proc α) = (([] : List Cmd), Except.error msg) := rfl

@[simp] theorem sleep_def (ms : ℚ) : Proc.sleep ms = ([Cmd.sleep ms], Except.ok ()) := rfl

theorem issue_of_none {dev : Dev} {c : Cmd} (h : dev c = none) :
    Proc.issue dev c = ([c], Except.ok ()) := by
  simp [Proc.issue, h]

theorem issue_of_some {dev : Dev} {c : Cmd} {r : String} (h : dev c = some r) :
    Proc.issue dev c = ([c], Except.error r) := by
  simp [Proc.issue, h]

@[simp] theorem forList_nil {α : Type} (f : α → Proc Unit) :
    Proc.forList ([] : List α) f = Proc.ok () := rfl

@[simp] theorem forList_cons {α : Type} (a : α) (xs : List α) (f : α → Proc Unit) :
    Proc.forList (a :: xs) f = Proc.bind (f a) (fun _ => Proc.forList xs f) := rfl

@[simp] theorem foldList_nil {σ α : Type} (init : σ) (f : σ → α → Proc σ) :
    Proc.foldList ([] : List α) init f = Proc.ok init := rfl

@[simp] theorem foldList_cons {σ α : Type} (a : α) (xs : List α) (init : σ)
    (f : σ → α → Proc σ) :
    Proc.foldList (a :: xs) init f = Proc.bind (f init a) (fun s => Proc.foldList xs s f) := rfl

/-- Inversion for successful sequencing: when a `bind` finishes without a
thrown error, both parts finished without one and the traces concatenate. -/
theorem bind_ok_inv {α β : Type} {x : Proc α} {f : α → Proc β} {b : β}
    (h : (Proc.bind x f).2 = Except.ok b) :
    ∃ a, x.2 = Except.ok a ∧ (f a).2 = Except.ok b ∧
      (Proc.bind x f).1 = x.1 ++ (f a).1 := by
  obtain ⟨tr, r⟩ := x
  cases r with
  | error e => simp [Proc.bind] at h
  | ok a => exact ⟨a, rfl, by simpa [Proc.bind] using h, rfl⟩

/-- A loop whose every iteration succeeds with a known trace runs to the
end, concatenating the per-iteration traces. -/
theorem forList_eq {α : Type} (xs : List α) (f : α → Proc Unit) (tr : α → List Cmd)
    (h : ∀ a ∈ xs, f a = (tr a, Except.ok ())) :
    Proc.forList xs f = (xs.flatMap tr, Except.ok ()) := by
  induction xs with
  | nil => simp
  | cons a rest ih =>
      have ha := h a (List.mem_cons_self a rest)
      have hrest := ih (fun b hb => h b (List.mem_cons_of_mem a hb))
      simp [ha, hrest]

/-- Counterpart of `forList_eq` for the state-threading loop. -/
theorem foldList_eq {σ α : Type} (xs : List α) (init : σ) (f : σ → α → Proc σ)
    (tr : α → List Cmd) (upd : σ → α → σ)
    (h : ∀ s : σ, ∀ a ∈ xs, f s a = (tr a, Except.ok (upd s a))) :
    Proc.foldList xs init f = (xs.flatMap tr, Except.ok (xs.foldl upd init)) := by
  induction xs generalizing init with
  | nil => simp
  | cons a rest ih =>
      have ha := h init a (List.mem_cons_self a rest)
      have hrest := ih (upd init a) (fun s b hb => h s b (List.mem_cons_of_mem a hb))
      simp [ha, hrest]

end Proc

/-- `detectSamNeoVersion` from `src/src/main.ts` lines 23–55.  The device's
`messageAttributes.ScalarCmd` list is abstracted to the list of its
`ActuatorType` tag strings (the only data the function inspects); a missing
or non-array `ScalarCmd` is `none`. -/
def detectSamNeoVersion (scalarCmds : Option (List String)) : SamNeoVersion :=
  match scalarCmds with
  | none => SamNeoVersion.ORIGINAL
  | some actuatorTypes =>
      let hasConstrict := actuatorTypes.contains "Constrict"
      let vibrateCount := (actuatorTypes.filter (fun t => t = "Vibrate")).length
      if hasConstrict ∧ vibrateCount = 1 then SamNeoVersion.NEO2_SERIES
      else if 2 ≤ vibrateCount then SamNeoVersion.ORIGINAL
      else SamNeoVersion.ORIGINAL

/-- The ordered fallback encoding chain of `executeNeo2VacuumControl`
(`src/src/tools/vacuum.ts` lines 21–63): each entry is the command the
approach issues paired with the label it returns on success.
`executeNeo2ComboVacuumControl` in `combo.ts` lines 11–53 and the copy in
`extendedO.ts` lines 7–53 build the identical chain. -/
def neo2Approaches (intensity : ℚ) : List (Cmd × String) :=
  [ (Cmd.scalar 1 intensity ActType.Constrict, "Constrict"),
    (Cmd.linear intensity 100, "Linear"),
    (Cmd.scalar 1 intensity ActType.Inflate, "Inflate-Index1"),
    (Cmd.scalar 0 intensity ActType.Inflate, "Inflate-Index0") ]

/-- The `for (const approach of approaches) { try ... catch continue }`
loop shared by the three copies of the Neo2 vacuum dispatcher: each
attempt's command is issued; on rejection the reason is only logged and
the next approach is tried; when none succeeds the fixed error is thrown. -/
def tryApproaches (dev : Dev) : List (Cmd × String) → Proc String
  | [] => Proc.fail "All Neo2 vacuum control approaches failed"
  | (c, label) :: rest =>
      match dev c with
      | none => ([c], Except.ok label)
      | some _ =>
          let r := tryApproaches dev rest
          (c :: r.1, r.2)

/-- `executeNeo2VacuumControl` (`src/src/tools/vacuum.ts` lines 7–78), also
standing for its verbatim duplicates `executeNeo2ComboVacuumControl`
(`combo.ts`) and the `extendedO.ts` copy: try the fixed encoding chain in
order, return the first successful label. -/
def executeNeo2VacuumControl (dev : Dev) (intensity : ℚ) : Proc String :=
  tryApproaches dev (neo2Approaches intensity)

/-- `executeOriginalVacuumControl` (`src/src/tools/vacuum.ts` lines 81–96):
one combined vibrate command, first vibrator off, second set to the vacuum
intensity; on rejection a fixed error is thrown. -/
def executeOriginalVacuumControl (dev : Dev) (intensity : ℚ) : Proc String :=
  let c := Cmd.vibrate [0, intensity]
  match dev c with
  | none => ([c], Except.ok "OriginalVibrate")
  | some _ => ([c], Except.error "Original Sam Neo vacuum control failed")

/-- The per-profile vacuum dispatch selection of the vacuum tool handler
(`vacuum.ts` lines 147–150). -/
def executeVacuumControl (dev : Dev) (ver : SamNeoVersion) (intensity : ℚ) : Proc String :=
  match ver with
  | SamNeoVersion.ORIGINAL => executeOriginalVacuumControl dev intensity
  | SamNeoVersion.NEO2_SERIES => executeNeo2VacuumControl dev intensity

/-- The `pattern` enum of the vacuum tool schema (`vacuum.ts` line 122) and
of the combo tool's `vacuumPattern` (`combo.ts` line 129). -/
inductive VacuumPattern where
  | constant
  | pulse
  | wave
deriving DecidableEq, Repr

/-- The `syncMode` enum of the combo tool schema (`combo.ts` line 123). -/
inductive SyncMode where
  | synchronized
  | alternating
  | independent
deriving DecidableEq, Repr

/-- String form of a pattern, as interpolated into response texts. -/
def VacuumPattern.jsName : VacuumPattern → String
  | VacuumPattern.constant => "constant"
  | VacuumPattern.pulse => "pulse"
  | VacuumPattern.wave => "wave"

/-- String form of a sync mode, as interpolated into response texts. -/
def SyncMode.jsName : SyncMode → String
  | SyncMode.synchronized => "synchronized"
  | SyncMode.alternating => "alternating"
  | SyncMode.independent => "independent"

/-- String value of the `SamNeoVersion` enum members (`main.ts` lines 17–20). -/
def SamNeoVersion.jsName : SamNeoVersion → String
  | SamNeoVersion.ORIGINAL => "original"
  | SamNeoVersion.NEO2_SERIES => "neo2_series"

/-- The Wave pattern's sample sequence: the `(intensity, holdMillis)` pairs
that the wave branch of the vacuum tool (`vacuum.ts` lines 168–189) drives,
in order — an increase loop `i = 0..steps` at `(i/steps)·intensity`
followed by a decrease loop `i = steps..0` at the same values, each sample
held for `duration/(steps*2)`.  The handler instantiates `steps = 20`. -/
def waveSamples (steps : ℕ) (intensity duration : ℚ) : List (ℚ × ℚ) :=
  let stepDuration := duration / (steps * 2)
  ((List.range (steps + 1)).map fun (i : ℕ) => (((i : ℚ) / steps) * intensity, stepDuration))
    ++ (((List.range (steps + 1)).reverse).map
        fun (i : ℕ) => (((i : ℚ) / steps) * intensity, stepDuration))

/-- The pattern branch of the vacuum tool handler (`vacuum.ts` lines
152–189), returning the final value of the `successfulApproach` local. -/
def vacuumPatternSection (dev : Dev) (ver : SamNeoVersion)
    (intensity duration pulseInterval : ℚ) : VacuumPattern → Proc String
  | VacuumPattern.constant =>
      Proc.bind (executeVacuumControl dev ver intensity) (fun a =>
      Proc.bind (Proc.sleep duration) (fun _ => Proc.ok a))
  | VacuumPattern.pulse =>
      let cycles := ((duration / (pulseInterval * 2)).floor).toNat
      Proc.foldList (List.range cycles) "" (fun _ _ =>
        Proc.bind (executeVacuumControl dev ver intensity) (fun a =>
        Proc.bind (Proc.sleep pulseInterval) (fun _ =>
        Proc.bind (executeVacuumControl dev ver 0) (fun _ =>
        Proc.bind (Proc.sleep pulseInterval) (fun _ => Proc.ok a)))))
  | VacuumPattern.wave =>
      let steps : ℕ := 20
      let stepDuration := duration / (steps * 2)
      Proc.bind
        (Proc.foldList (List.range (steps + 1)) "" (fun _ i =>
          Proc.bind (executeVacuumControl dev ver (((i : ℚ) / steps) * intensity)) (fun a =>
          Proc.bind (Proc.sleep stepDuration) (fun _ => Proc.ok a))))
        (fun a =>
          Proc.bind
            (Proc.forList ((List.range (steps + 1)).reverse) (fun i =>
              Proc.bind (executeVacuumControl dev ver (((i : ℚ) / steps) * intensity)) (fun _ =>
              Proc.sleep stepDuration)))
            (fun _ => Proc.ok a))

/-- The `try` block of the vacuum tool handler (`vacuum.ts` lines 138–204):
run the pattern, then dispatch a final zero-intensity set, then report the
successful approach. -/
def vacuumToolBody (dev : Dev) (ver : SamNeoVersion) (intensity duration : ℚ)
    (pattern : VacuumPattern) (pulseInterval : ℚ) : Proc String :=
  Proc.bind (vacuumPatternSection dev ver intensity duration pulseInterval pattern) (fun a =>
  Proc.bind (executeVacuumControl dev ver 0) (fun _ => Proc.ok a))

/-- Success response template of the vacuum tool (`vacuum.ts` line 201). -/
def vacuumSuccessText (intensity duration : ℚ) (pattern : VacuumPattern)
    (approach : String) (ver : SamNeoVersion) : String :=
  "Vacuum operation completed - intensity: " ++ toString intensity ++
    ", duration: " ++ toString duration ++ "ms, pattern: " ++ pattern.jsName ++
    ", method: " ++ approach ++ ", device: " ++ ver.jsName

/-- The full vacuum tool handler (`vacuum.ts` lines 138–222): the `try`
body above, with the `catch` converting a thrown error into the failure
response that interpolates the device capability string and the error. -/
def vacuumToolHandler (dev : Dev) (capsStr : String) (ver : SamNeoVersion)
    (intensity duration : ℚ) (pattern : VacuumPattern) (pulseInterval : ℚ) :
    List Cmd × String :=
  let body := vacuumToolBody dev ver intensity duration pattern pulseInterval
  match body.2 with
  | Except.ok a => (body.1, vacuumSuccessText intensity duration pattern a ver)
  | Except.error e =>
      (body.1, "Vacuum control failed. Device capabilities: " ++ capsStr ++
        ". Error: " ++ e)

/-- The `try` block of the piston tool handler (`piston.ts` lines 38–68):
the per-profile stepping loop followed by `device.stop()`. -/
def pistonBody (dev : Dev) (ver : SamNeoVersion) (duration : ℚ) (steps : ℕ)
    (vibrationPower : ℚ) : Proc Unit :=
  let diff : ℚ := 1 / steps
  let delay : ℚ := duration / steps
  Proc.bind
    (match ver with
     | SamNeoVersion.ORIGINAL =>
         Proc.forList (List.range steps) (fun i =>
           let intensity := diff * i
           Proc.bind (Proc.issue dev (Cmd.vibrate [vibrationPower, intensity])) (fun _ =>
           Proc.sleep delay))
     | SamNeoVersion.NEO2_SERIES =>
         Proc.forList (List.range steps) (fun i =>
           let intensity := diff * i
           Proc.bind (Proc.issue dev (Cmd.scalar 0 (intensity * vibrationPower) ActType.Vibrate))
             (fun _ => Proc.sleep delay)))
    (fun _ => Proc.bind (Proc.issue dev Cmd.stop) (fun _ => Proc.ok ()))

/-- `executeOriginalComboControl` (`combo.ts` lines 70–86): one combined
vibrate command carrying both channel levels; rejection is rewrapped in a
fixed error. -/
def executeOriginalComboControl (dev : Dev) (vibrationLevel vacuumLevel : ℚ) : Proc String :=
  let c := Cmd.vibrate [vibrationLevel, vacuumLevel]
  match dev c with
  | none => ([c], Except.ok "OriginalCombo")
  | some _ => ([c], Except.error "Original Sam Neo combo control failed")

/-- The sync-mode branch of the combo tool handler (`combo.ts` lines
147–291).  The Neo2 `independent` branch (lines 230–290) launches two
concurrently timed command streams joined by `Promise.all`; its event-loop
interleaving is real-time dependent, so that branch's behaviour is taken
as an explicit parameter `indep2` rather than modelled (no claim settled
here depends on it). -/
def comboModeSection (dev : Dev) (ver : SamNeoVersion) (duration : ℚ) (steps : ℕ)
    (vibrationPower vacuumIntensity : ℚ) (syncMode : SyncMode)
    (vacuumPattern : VacuumPattern) (sinpi : ℚ → ℚ) (indep2 : Proc Unit) : Proc Unit :=
  let diff : ℚ := 1 / steps
  let delay : ℚ := duration / steps
  match syncMode with
  | SyncMode.synchronized =>
      Proc.forList (List.range steps) (fun i =>
        let intensity := diff * i
        Proc.bind
          (match ver with
           | SamNeoVersion.ORIGINAL =>
               Proc.bind
                 (executeOriginalComboControl dev (intensity * vibrationPower)
                   (intensity * vacuumIntensity)) (fun _ => Proc.ok ())
           | SamNeoVersion.NEO2_SERIES =>
               Proc.bind (Proc.issue dev (Cmd.scalar 0 (intensity * vibrationPower) ActType.Vibrate))
                 (fun _ =>
                   Proc.bind (executeNeo2VacuumControl dev (intensity * vacuumIntensity))
                     (fun _ => Proc.ok ())))
          (fun _ => Proc.sleep delay))
  | SyncMode.alternating =>
      Proc.forList (List.range steps) (fun i =>
        let intensity := diff * i
        let vibrationLevel := intensity * vibrationPower
        let vacuumLevel := (1 - intensity) * vacuumIntensity
        Proc.bind
          (match ver with
           | SamNeoVersion.ORIGINAL =>
               Proc.bind (executeOriginalComboControl dev vibrationLevel vacuumLevel)
                 (fun _ => Proc.ok ())
           | SamNeoVersion.NEO2_SERIES =>
               Proc.bind (Proc.issue dev (Cmd.scalar 0 vibrationLevel ActType.Vibrate)) (fun _ =>
               Proc.bind (executeNeo2VacuumControl dev vacuumLevel) (fun _ => Proc.ok ())))
          (fun _ => Proc.sleep delay))
  | SyncMode.independent =>
      match ver with
      | SamNeoVersion.ORIGINAL =>
          Proc.forList (List.range steps) (fun i =>
            let intensity := diff * i
            let currentVacuum :=
              match vacuumPattern with
              | VacuumPattern.wave => sinpi ((i : ℚ) / steps) * vacuumIntensity
              | _ => vacuumIntensity
            Proc.bind (executeOriginalComboControl dev (intensity * vibrationPower) currentVacuum)
              (fun _ => Proc.sleep delay))
      | SamNeoVersion.NEO2_SERIES => indep2

/-- The stop section of the combo tool handler (`combo.ts` lines 293–308):
both actuators set to zero with the per-profile encoding. -/
def comboStopSection (dev : Dev) (ver : SamNeoVersion) : Proc Unit :=
  match ver with
  | SamNeoVersion.ORIGINAL => Proc.issue dev (Cmd.vibrate [0, 0])
  | SamNeoVersion.NEO2_SERIES =>
      Proc.bind (Proc.issue dev (Cmd.scalar 0 0 ActType.Vibrate)) (fun _ =>
      Proc.bind (executeNeo2VacuumControl dev 0) (fun _ => Proc.ok ()))

/-- The `try` block of the combo tool handler (`combo.ts` lines 142–320):
mode section, then the unconditional-on-success stop section. -/
def comboToolBody (dev : Dev) (ver : SamNeoVersion) (duration : ℚ) (steps : ℕ)
    (vibrationPower vacuumIntensity : ℚ) (syncMode : SyncMode)
    (vacuumPattern : VacuumPattern) (sinpi : ℚ → ℚ) (indep2 : Proc Unit) : Proc Unit :=
  Proc.bind
    (comboModeSection dev ver duration steps vibrationPower vacuumIntensity syncMode
      vacuumPattern sinpi indep2)
    (fun _ => Proc.bind (comboStopSection dev ver) (fun _ => Proc.ok ()))

/-- Success response template of the combo tool (`combo.ts` line 317). -/
def comboSuccessText (duration : ℚ) (steps : ℕ) (vibrationPower vacuumIntensity : ℚ)
    (syncMode : SyncMode) (ver : SamNeoVersion) : String :=
  "Combo stimulation completed - duration: " ++ toString duration ++ "ms, steps: " ++
    toString steps ++ ", vibration: " ++ toString vibrationPower ++ ", vacuum: " ++
    toString vacuumIntensity ++ ", mode: " ++ syncMode.jsName ++ ", device: " ++ ver.jsName

/-- The full combo tool handler (`combo.ts` lines 134–331): the `try` body
with the `catch` converting a thrown error into the `Error: …` response. -/
def comboToolHandler (dev : Dev) (ver : SamNeoVersion) (duration : ℚ) (steps : ℕ)
    (vibrationPower vacuumIntensity : ℚ) (syncMode : SyncMode)
    (vacuumPattern : VacuumPattern) (sinpi : ℚ → ℚ) (indep2 : Proc Unit) :
    List Cmd × String :=
  let body := comboToolBody dev ver duration steps vibrationPower vacuumIntensity syncMode
    vacuumPattern sinpi indep2
  match body.2 with
  | Except.ok _ =>
      (body.1, comboSuccessText duration steps vibrationPower vacuumIntensity syncMode ver)
  | Except.error e => (body.1, "Error: " ++ e)

/-- Phase 1 (drop) of the extended-O handler (`extendedO.ts` lines
128–151): both channels set to `minimumLevel` with the per-profile
encoding. -/
def extendedODrop (dev : Dev) (ver : SamNeoVersion) (minimumLevel : ℚ) : Proc Unit :=
  match ver with
  | SamNeoVersion.ORIGINAL => Proc.issue dev (Cmd.vibrate [minimumLevel, minimumLevel])
  | SamNeoVersion.NEO2_SERIES =>
      Proc.bind (Proc.issue dev (Cmd.scalar 0 minimumLevel ActType.Vibrate)) (fun _ =>
      Proc.bind (executeNeo2VacuumControl dev minimumLevel) (fun _ => Proc.ok ()))

/-- Phase 3 (restore) of the extended-O handler (`extendedO.ts` lines
159–204): instant restore when `restoreDuration == 0`, otherwise ten
interpolation steps `i = 1..10`, each followed by a
`restoreDuration/10` suspension. -/
def extendedORestore (dev : Dev) (ver : SamNeoVersion)
    (currentVibration currentVacuum minimumLevel restoreDuration : ℚ) : Proc Unit :=
  if restoreDuration = 0 then
    match ver with
    | SamNeoVersion.ORIGINAL => Proc.issue dev (Cmd.vibrate [currentVibration, currentVacuum])
    | SamNeoVersion.NEO2_SERIES =>
        Proc.bind (Proc.issue dev (Cmd.scalar 0 currentVibration ActType.Vibrate)) (fun _ =>
        Proc.bind (executeNeo2VacuumControl dev currentVacuum) (fun _ => Proc.ok ()))
  else
    let steps : ℕ := 10
    let stepDelay := restoreDuration / steps
    let vibrationStep := (currentVibration - minimumLevel) / steps
    let vacuumStep := (currentVacuum - minimumLevel) / steps
    Proc.forList (List.range' 1 steps) (fun i =>
      let vibrationLevel := minimumLevel + vibrationStep * i
      let vacuumLevel := minimumLevel + vacuumStep * i
      Proc.bind
        (match ver with
         | SamNeoVersion.ORIGINAL => Proc.issue dev (Cmd.vibrate [vibrationLevel, vacuumLevel])
         | SamNeoVersion.NEO2_SERIES =>
             Proc.bind (Proc.issue dev (Cmd.scalar 0 vibrationLevel ActType.Vibrate)) (fun _ =>
             Proc.bind (executeNeo2VacuumControl dev vacuumLevel) (fun _ => Proc.ok ())))
        (fun _ => Proc.sleep stepDelay))

/-- The `try` block of the extended-O handler (`extendedO.ts` lines
116–216): drop, hold (one suspension), restore — all three phases inside
the single `try`; a thrown error anywhere propagates straight to the
`catch`, which returns the error response without further device calls. -/
def extendedOBody (dev : Dev) (ver : SamNeoVersion)
    (currentVibration currentVacuum holdDuration minimumLevel restoreDuration : ℚ) :
    Proc Unit :=
  Proc.bind (extendedODrop dev ver minimumLevel) (fun _ =>
  Proc.bind (Proc.sleep holdDuration) (fun _ =>
  extendedORestore dev ver currentVibration currentVacuum minimumLevel restoreDuration))

/-! ### Helper lemmas about the fallback chain loop -/

/-- When every attempt in the chain is rejected, the loop issues every
command in order and ends in the fixed error — whose text does not depend
on the rejection reasons. -/
theorem tryApproaches_all_fail (dev : Dev) (chain : List (Cmd × String))
    (h : ∀ p ∈ chain, (dev p.1).isSome = true) :
    tryApproaches dev chain =
      (chain.map Prod.fst, Except.error "All Neo2 vacuum control approaches failed") := by
  induction chain with
  | nil => rfl
  | cons p rest ih =>
      obtain ⟨c, label⟩ := p
      obtain ⟨r, hr⟩ := Option.isSome_iff_exists.mp (h (c, label) (List.mem_cons_self _ _))
      simp [tryApproaches, hr, ih (fun q hq => h q (List.mem_cons_of_mem _ hq))]

/-- The loop's outcome depends on the device only through which commands
are accepted, never through the rejection reason strings. -/
theorem tryApproaches_congr (dev1 dev2 : Dev) (chain : List (Cmd × String))
    (h : ∀ c, (dev1 c).isSome = (dev2 c).isSome) :
    tryApproaches dev1 chain = tryApproaches dev2 chain := by
  induction chain with
  | nil => rfl
  | cons p rest ih =>
      obtain ⟨c, label⟩ := p
      cases h1 : dev1 c with
      | none =>
          have h2 : dev2 c = none := by
            have hh := h c
            rw [h1] at hh
            exact Option.not_isSome_iff_eq_none.mp (by simp [← hh])
          simp [tryApproaches, h1, h2]
      | some r =>
          have hh : (dev2 c).isSome = true := by rw [← h c, h1]; rfl
          obtain ⟨r2, h2⟩ := Option.isSome_iff_exists.mp hh
          simp [tryApproaches, h1, h2, ih]

/-! ### C5 — capability detection -/

/-- C5: capability detection is a total function of the reported
command-attribute list: it yields `NEO2_SERIES` (the spec's IndexedDual)
exactly when a `"Constrict"` descriptor is present and the `"Vibrate"`
count is exactly 1, and `ORIGINAL` (the spec's Legacy) in every other
case, including a missing or malformed attribute list (`none`).  As a Lean
function it is deterministic and never raises. -/
theorem detectSamNeoVersion_characterization :
    ∀ o : Option (List String),
      (detectSamNeoVersion o = SamNeoVersion.NEO2_SERIES ∨
        detectSamNeoVersion o = SamNeoVersion.ORIGINAL) ∧
      (detectSamNeoVersion o = SamNeoVersion.NEO2_SERIES ↔
        ∃ l, o = some l ∧ l.contains "Constrict" = true ∧
          (l.filter (fun t => t = "Vibrate")).length = 1) ∧
      detectSamNeoVersion none = SamNeoVersion.ORIGINAL := by
  intro o
  refine ⟨?_, ?_, rfl⟩
  · cases o with
    | none => exact Or.inr rfl
    | some l =>
        simp only [detectSamNeoVersion]
        split
        · exact Or.inl rfl
        · split
          · exact Or.inr rfl
          · exact Or.inr rfl
  · cases o with
    | none => simp [detectSamNeoVersion]
    | some l =>
        by_cases hc : (l.contains "Constrict" = true) ∧
            (l.filter (fun t => t = "Vibrate")).length = 1
        · have hdet : detectSamNeoVersion (some l) = SamNeoVersion.NEO2_SERIES := by
            simp [detectSamNeoVersion, hc.2, List.elem_iff.mp hc.1]
          rw [hdet]
          exact ⟨fun _ => ⟨l, rfl, hc.1, hc.2⟩, fun _ => rfl⟩
        · have hdet : detectSamNeoVersion (some l) = SamNeoVersion.ORIGINAL := by
            simp only [detectSamNeoVersion, if_neg hc]
            split <;> rfl
          rw [hdet]
          constructor
          · intro hfalse
            exact absurd hfalse (by simp)
          · rintro ⟨l2, hl2, hmem, hcount⟩
            cases Option.some.inj hl2
            exact absurd ⟨hmem, hcount⟩ hc

/-! ### C2 — the IndexedDual fallback order -/

/-- C2: the four encodings of the Neo2 vacuum dispatcher are attempted in
the fixed order Constrict@1, Linear, Inflate@1, Inflate@0: the issued
trace is always an initial segment of that chain, and whenever the first `k`
attempts are rejected and attempt `k` is accepted the dispatcher stops
there, returning attempt `k`'s label (so with encodings 1 and 2 failing
and encoding 3 succeeding it returns "Inflate-Index1" and never issues
encoding 4). -/
theorem neo2VacuumControl_first_success :
    ∀ (dev : Dev) (v : ℚ),
      (∃ n, (executeNeo2VacuumControl dev v).1 = ((neo2Approaches v).map Prod.fst).take n) ∧
      (∀ (k : ℕ) (c : Cmd) (label : String),
        (((neo2Approaches v).take k).all (fun p => (dev p.1).isSome)) = true →
        (neo2Approaches v).get? k = some (c, label) →
        dev c = none →
        executeNeo2VacuumControl dev v =
          ((((neo2Approaches v).take k).map Prod.fst) ++ [c], Except.ok label)) := by
  intro dev v
  constructor
  · unfold executeNeo2VacuumControl neo2Approaches tryApproaches
    cases h1 : dev (Cmd.scalar 1 v ActType.Constrict) with
    | none => exact ⟨1, by simp [h1]⟩
    | some r1 =>
        cases h2 : dev (Cmd.linear v 100) with
        | none => exact ⟨2, by simp [tryApproaches, h1, h2]⟩
        | some r2 =>
            cases h3 : dev (Cmd.scalar 1 v ActType.Inflate) with
            | none => exact ⟨3, by simp [tryApproaches, h1, h2, h3]⟩
            | some r3 =>
                cases h4 : dev (Cmd.scalar 0 v ActType.Inflate) with
                | none => exact ⟨4, by simp [tryApproaches, h1, h2, h3, h4]⟩
                | some r4 => exact ⟨4, by simp [tryApproaches, h1, h2, h3, h4]⟩
  · intro k c label hall hget hc
    match k with
    | 0 =>
        obtain ⟨rfl, rfl⟩ : Cmd.scalar 1 v ActType.Constrict = c ∧ "Constrict" = label := by
          simpa [neo2Approaches] using hget
        simp [executeNeo2VacuumControl, neo2Approaches, tryApproaches, hc]
    | 1 =>
        obtain ⟨rfl, rfl⟩ : Cmd.linear v 100 = c ∧ "Linear" = label := by
          simpa [neo2Approaches] using hget
        obtain ⟨r1, h1⟩ := Option.isSome_iff_exists.mp (by simpa [neo2Approaches] using hall)
        simp [executeNeo2VacuumControl, neo2Approaches, tryApproaches, h1, hc]
    | 2 =>
        obtain ⟨rfl, rfl⟩ : Cmd.scalar 1 v ActType.Inflate = c ∧ "Inflate-Index1" = label := by
          simpa [neo2Approaches] using hget
        have hall2 : (dev (Cmd.scalar 1 v ActType.Constrict)).isSome = true ∧
            (dev (Cmd.linear v 100)).isSome = true := by
          simpa [neo2Approaches] using hall
        obtain ⟨r1, h1⟩ := Option.isSome_iff_exists.mp hall2.1
        obtain ⟨r2, h2⟩ := Option.isSome_iff_exists.mp hall2.2
        simp [executeNeo2VacuumControl, neo2Approaches, tryApproaches, h1, h2, hc]
    | 3 =>
        obtain ⟨rfl, rfl⟩ : Cmd.scalar 0 v ActType.Inflate = c ∧ "Inflate-Index0" = label := by
          simpa [neo2Approaches] using hget
        have hall2 : (dev (Cmd.scalar 1 v ActType.Constrict)).isSome = true ∧
            (dev (Cmd.linear v 100)).isSome = true ∧
            (dev (Cmd.scalar 1 v ActType.Inflate)).isSome = true := by
          simpa [neo2Approaches] using hall
        obtain ⟨r1, h1⟩ := Option.isSome_iff_exists.mp hall2.1
        obtain ⟨r2, h2⟩ := Option.isSome_iff_exists.mp hall2.2.1
        obtain ⟨r3, h3⟩ := Option.isSome_iff_exists.mp hall2.2.2
        simp [executeNeo2VacuumControl, neo2Approaches, tryApproaches, h1, h2, h3, hc]
    | (n + 4) => simp [neo2Approaches] at hget

/-- A device oracle that accepts only Inflate-kind scalar commands,
rejecting everything else: the C2 witness scenario (encodings 1 and 2
fail, encoding 3 succeeds). -/
def inflateOnlyDev : Dev := fun c =>
  match c with
  | Cmd.scalar _ _ ActType.Inflate => none
  | _ => some "rejected"

/-- Witness for C2: the Inflate-only device makes the dispatcher return
"Inflate-Index1" after issuing exactly the first three commands (encoding
4 is never issued). -/
theorem neo2VacuumControl_first_success_witness :
    executeNeo2VacuumControl inflateOnlyDev (1/2) =
      ([Cmd.scalar 1 (1/2) ActType.Constrict, Cmd.linear (1/2) 100,
        Cmd.scalar 1 (1/2) ActType.Inflate], Except.ok "Inflate-Index1") := by
  have h := (neo2VacuumControl_first_success inflateOnlyDev (1/2)).2 2
    (Cmd.scalar 1 (1/2) ActType.Inflate) "Inflate-Index1" (by rfl) (by rfl) (by rfl)
  simpa [neo2Approaches] using h

/-! ### C7 — behaviour when every encoding fails -/

/-- C7 (amended): when all four encodings are rejected the dispatcher
issues all four commands and throws the FIXED error
"All Neo2 vacuum control approaches failed"; the per-attempt failure
reasons are not carried by the error — the dispatcher's outcome depends on
the device only through which commands are accepted, never through the
rejection reasons (they are only logged). -/
theorem neo2VacuumControl_all_fail :
    (∀ (dev : Dev) (v : ℚ),
      (∀ p ∈ neo2Approaches v, (dev p.1).isSome = true) →
      executeNeo2VacuumControl dev v =
        ((neo2Approaches v).map Prod.fst,
          Except.error "All Neo2 vacuum control approaches failed")) ∧
    (∀ (dev1 dev2 : Dev) (v : ℚ),
      (∀ c, (dev1 c).isSome = (dev2 c).isSome) →
      executeNeo2VacuumControl dev1 v = executeNeo2VacuumControl dev2 v) :=
  ⟨fun dev v h => tryApproaches_all_fail dev (neo2Approaches v) h,
   fun dev1 dev2 v h => tryApproaches_congr dev1 dev2 (neo2Approaches v) h⟩

/-- Witness for C7's amended theorem: a device rejecting everything makes
the dispatcher issue all four chain commands and end in the fixed error. -/
theorem neo2VacuumControl_all_fail_witness :
    executeNeo2VacuumControl (fun _ => some "rejected") 1 =
      ([Cmd.scalar 1 1 ActType.Constrict, Cmd.linear 1 100,
        Cmd.scalar 1 1 ActType.Inflate, Cmd.scalar 0 1 ActType.Inflate],
        Except.error "All Neo2 vacuum control approaches failed") := by
  have h := neo2VacuumControl_all_fail.1 (fun _ => some "rejected") 1 (fun p _ => rfl)
  simpa [neo2Approaches] using h

set_option maxRecDepth 4000

/-- C7 counterexample: two devices that reject all four encodings with
DIFFERENT per-attempt reasons produce literally identical dispatcher
outcomes, so the signalled error cannot carry the list of per-attempt
failure reasons; and the failure response the vacuum tool delivers
contains only the capability string and the fixed message — the attempt
reason string does not occur in it. -/
theorem neo2VacuumControl_reasons_dropped :
    executeNeo2VacuumControl (fun _ => some "reason A") 1 =
      executeNeo2VacuumControl (fun _ => some "reason B") 1 ∧
    (executeNeo2VacuumControl (fun _ => some "reason A") 1).2 =
      Except.error "All Neo2 vacuum control approaches failed" ∧
    (vacuumToolHandler (fun _ => some "reason A") "CAPS" SamNeoVersion.NEO2_SERIES 1 1000
        VacuumPattern.constant 500).2 =
      "Vacuum control failed. Device capabilities: CAPS. Error: All Neo2 vacuum control approaches failed" ∧
    ¬ ("reason A".toList <:+:
        (vacuumToolHandler (fun _ => some "reason A") "CAPS" SamNeoVersion.NEO2_SERIES 1 1000
          VacuumPattern.constant 500).2.toList) :=
  ⟨rfl, rfl, rfl, by decide⟩

/-! ### C3 — the Legacy vacuum dispatch -/

/-- C3 counterexample: the Legacy vacuum dispatch hard-codes the vibration
channel to 0 ("First vibrator off"), it does NOT hold the vibration
channel's last-known value: in a state whose last-known vibration value is
0.7 the claim predicts the combined command `[0.7, 0.5]`, but the code
issues `[0, 0.5]` for every prior state. -/
theorem originalVacuum_not_last_known :
    executeOriginalVacuumControl (fun _ => none) (1/2) =
      ([Cmd.vibrate [0, 1/2]], Except.ok "OriginalVibrate") ∧
    Cmd.vibrate [0, 1/2] ≠ Cmd.vibrate [7/10, 1/2] := by
  refine ⟨rfl, fun h => ?_⟩
  injection h with h1
  have h2 := List.cons.inj h1
  exact absurd h2.1 (by norm_num)

/-- C3 (amended): the Legacy vacuum dispatch issues exactly one combined
two-channel command, with the vibration channel set to 0 (off) and the
vacuum-mapped second channel set to the intensity; when the command is
accepted the returned label is "OriginalVibrate". -/
theorem originalVacuum_issues_one_combined :
    ∀ (dev : Dev) (v : ℚ),
      (executeOriginalVacuumControl dev v).1 = [Cmd.vibrate [0, v]] ∧
      (dev (Cmd.vibrate [0, v]) = none →
        executeOriginalVacuumControl dev v =
          ([Cmd.vibrate [0, v]], Except.ok "OriginalVibrate")) := by
  intro dev v
  constructor
  · cases h : dev (Cmd.vibrate [0, v]) <;> simp [executeOriginalVacuumControl, h]
  · intro h
    simp [executeOriginalVacuumControl, h]

/-- Witness for C3's amended theorem at intensity 1/2 on an accepting
device. -/
theorem originalVacuum_issues_one_combined_witness :
    (executeOriginalVacuumControl (fun _ => none) (1/2)).1 = [Cmd.vibrate [0, 1/2]] ∧
    executeOriginalVacuumControl (fun _ => none) (1/2) =
      ([Cmd.vibrate [0, 1/2]], Except.ok "OriginalVibrate") :=
  ⟨(originalVacuum_issues_one_combined (fun _ => none) (1/2)).1,
   (originalVacuum_issues_one_combined (fun _ => none) (1/2)).2 rfl⟩

/-! ### C8 — the Wave pattern envelope -/

/-- C8: for every steps > 0 the Wave pattern produces exactly
`2*(steps+1)` samples; the sample sequence is its own reverse (palindrome
symmetry); intensities follow `(i/steps)·target` on the rising half — so
the first sample is 0 and the sample at index `steps` is exactly the
target — every intensity stays within `[0, target]`, the rising half is
monotone, and every sample is held for `duration/(2·steps)`.  The final
conjunct grounds the definition: on an accepting Legacy device the wave
branch of the vacuum tool drives exactly these samples (the handler
instantiates steps = 20). -/
theorem waveSamples_envelope :
    ∀ (steps : ℕ) (v dur : ℚ), 0 < steps → 0 ≤ v →
      (waveSamples steps v dur).length = 2 * (steps + 1) ∧
      (waveSamples steps v dur).reverse = waveSamples steps v dur ∧
      (∀ i, i ≤ steps → (waveSamples steps v dur)[i]? =
        some (((i : ℚ) / steps) * v, dur / (2 * steps))) ∧
      (waveSamples steps v dur)[0]? = some (0, dur / (2 * steps)) ∧
      (waveSamples steps v dur)[steps]? = some (v, dur / (2 * steps)) ∧
      (∀ p ∈ waveSamples steps v dur, 0 ≤ p.1 ∧ p.1 ≤ v ∧ p.2 = dur / (2 * steps)) ∧
      (∀ i j, i ≤ j → j ≤ steps →
        ((waveSamples steps v dur).map Prod.fst).getD i 0 ≤
          ((waveSamples steps v dur).map Prod.fst).getD j 0) ∧
      (∀ dev : Dev, (∀ c, dev c = none) →
        vacuumPatternSection dev SamNeoVersion.ORIGINAL v dur 500 VacuumPattern.wave =
          ((waveSamples 20 v dur).flatMap (fun s => [Cmd.vibrate [0, s.1], Cmd.sleep s.2]),
            Except.ok "OriginalVibrate")) := by
  intro steps v dur hsteps hv
  have hcast : (0 : ℚ) < (steps : ℚ) := by exact_mod_cast hsteps
  have hne : ((steps : ℚ)) ≠ 0 := ne_of_gt hcast
  have hdur : dur / ((steps : ℚ) * 2) = dur / (2 * (steps : ℚ)) := by ring_nf
  have hsplit : waveSamples steps v dur =
      ((List.range (steps + 1)).map
          fun (i : ℕ) => (((i : ℚ) / steps) * v, dur / ((steps : ℚ) * 2)))
        ++ ((List.range (steps + 1)).map
          fun (i : ℕ) => (((i : ℚ) / steps) * v, dur / ((steps : ℚ) * 2))).reverse := by
    rw [waveSamples, List.map_reverse]
  have hup : ∀ i, i ≤ steps → (waveSamples steps v dur)[i]? =
      some (((i : ℚ) / steps) * v, dur / (2 * steps)) := by
    intro i hi
    have hlen : i < ((List.range (steps + 1)).map
        fun (i : ℕ) => (((i : ℚ) / steps) * v, dur / ((steps : ℚ) * 2))).length := by
      simpa using Nat.lt_succ_of_le hi
    rw [hsplit, List.getElem?_append_left hlen, List.getElem?_map,
      List.getElem?_range (Nat.lt_succ_of_le hi)]
    simp [hdur]
  refine ⟨?_, ?_, hup, ?_, ?_, ?_, ?_, ?_⟩
  · rw [hsplit]
    simp only [List.length_append, List.length_reverse, List.length_map, List.length_range]
    ring
  · rw [hsplit, List.reverse_append, List.reverse_reverse]
  · have h0 := hup 0 (Nat.zero_le steps)
    simpa using h0
  · have hs := hup steps le_rfl
    rw [hs, div_self hne, one_mul]
  · intro p hp
    have hmem : p ∈ (List.range (steps + 1)).map
        fun (i : ℕ) => (((i : ℚ) / steps) * v, dur / ((steps : ℚ) * 2)) := by
      rw [hsplit, List.mem_append, List.mem_reverse] at hp
      rcases hp with hp | hp <;> exact hp
    obtain ⟨i, hi, rfl⟩ := List.mem_map.mp hmem
    have hile : (i : ℚ) ≤ (steps : ℚ) := by
      exact_mod_cast Nat.le_of_lt_succ (List.mem_range.mp hi)
    refine ⟨?_, ?_, hdur⟩
    · exact mul_nonneg (div_nonneg (Nat.cast_nonneg i) (le_of_lt hcast)) hv
    · calc ((i : ℚ) / steps) * v ≤ 1 * v := by
            exact mul_le_mul_of_nonneg_right ((div_le_one hcast).mpr hile) hv
        _ = v := one_mul v
  · intro i j hij hj
    have hvi := hup i (le_trans hij hj)
    have hvj := hup j hj
    have hgi : ((waveSamples steps v dur).map Prod.fst).getD i 0 = ((i : ℚ) / steps) * v := by
      rw [List.getD_eq_getElem?_getD, List.getElem?_map, hvi]
      rfl
    have hgj : ((waveSamples steps v dur).map Prod.fst).getD j 0 = ((j : ℚ) / steps) * v := by
      rw [List.getD_eq_getElem?_getD, List.getElem?_map, hvj]
      rfl
    rw [hgi, hgj]
    have hle : (i : ℚ) / steps ≤ (j : ℚ) / steps := by
      gcongr
    exact mul_le_mul_of_nonneg_right hle hv
  · intro dev hdev
    have hexec : ∀ x : ℚ, executeVacuumControl dev SamNeoVersion.ORIGINAL x =
        ([Cmd.vibrate [0, x]], Except.ok "OriginalVibrate") := by
      intro x
      simp [executeVacuumControl, executeOriginalVacuumControl, hdev]
    have hfold := Proc.foldList_eq (List.range (20 + 1)) ""
      (fun _ i => Proc.bind (executeVacuumControl dev SamNeoVersion.ORIGINAL
          (((i : ℚ) / (20 : ℕ)) * v))
        (fun a => Proc.bind (Proc.sleep (dur / ((20 : ℕ) * 2))) (fun _ => Proc.ok a)))
      (fun i => [Cmd.vibrate [0, ((i : ℚ) / (20 : ℕ)) * v], Cmd.sleep (dur / ((20 : ℕ) * 2))])
      (fun _ _ => "OriginalVibrate")
      (by intro s a _; simp [hexec])
    have hfor := Proc.forList_eq ((List.range (20 + 1)).reverse)
      (fun i => Proc.bind (executeVacuumControl dev SamNeoVersion.ORIGINAL
          (((i : ℚ) / (20 : ℕ)) * v))
        (fun _ => Proc.sleep (dur / ((20 : ℕ) * 2))))
      (fun i => [Cmd.vibrate [0, ((i : ℚ) / (20 : ℕ)) * v], Cmd.sleep (dur / ((20 : ℕ) * 2))])
      (by intro a _; simp [hexec])
    rw [vacuumPatternSection]
    rw [hfold]
    have hfoldl : (List.range (20 + 1)).foldl (fun _ _ => "OriginalVibrate") "" =
        "OriginalVibrate" := by rfl
    rw [hfoldl]
    simp only [Proc.bind_mk_ok]
    rw [hfor]
    simp only [Proc.bind_mk_ok, Proc.ok_def]
    rw [waveSamples]
    simp only [List.flatMap_append, ← List.map_reverse, List.flatMap_map]
    simp

/-- Witness for C8 at steps = 2, target 1, duration 8, and (for the
handler conjunct) an accepting device. -/
theorem waveSamples_envelope_witness :
    (waveSamples 2 1 8).length = 2 * (2 + 1) ∧
    vacuumPatternSection (fun _ => none) SamNeoVersion.ORIGINAL 1 8 500 VacuumPattern.wave =
      ((waveSamples 20 1 8).flatMap (fun s => [Cmd.vibrate [0, s.1], Cmd.sleep s.2]),
        Except.ok "OriginalVibrate") := by
  have h2 := waveSamples_envelope 2 1 8 (by norm_num) (by norm_num)
  have h20 := waveSamples_envelope 20 1 8 (by norm_num) (by norm_num)
  exact ⟨h2.1, h20.2.2.2.2.2.2.2 (fun _ => none) (fun _ => rfl)⟩

/-! ### C9 — the restore phase of the extended-hold sequencer -/

/-- C9: with an accepting device, the restore phase sets both channels
directly to their pre-drop values with no interpolation steps when
`restoreDuration = 0` (one combined command under Legacy; vibration set
plus first-encoding vacuum set under IndexedDual), and otherwise issues
exactly the 10 interpolation steps `i = 1..10`, each followed by a
`restoreDuration/10` suspension, with channel values
`minimumLevel + ((preDrop − minimumLevel)/10)·i` — so the values issued at
step 10 equal the pre-drop values exactly. -/
theorem extendedORestore_spec :
    ∀ (dev : Dev) (ver : SamNeoVersion) (cv cva ml rd : ℚ),
      (∀ c, dev c = none) →
      (rd = 0 → extendedORestore dev ver cv cva ml rd =
        ((match ver with
          | SamNeoVersion.ORIGINAL => [Cmd.vibrate [cv, cva]]
          | SamNeoVersion.NEO2_SERIES =>
              [Cmd.scalar 0 cv ActType.Vibrate, Cmd.scalar 1 cva ActType.Constrict]),
         Except.ok ())) ∧
      (rd ≠ 0 → extendedORestore dev ver cv cva ml rd =
        ((List.range' 1 10).flatMap (fun i =>
          (match ver with
           | SamNeoVersion.ORIGINAL =>
               [Cmd.vibrate [ml + (cv - ml) / 10 * (i : ℚ), ml + (cva - ml) / 10 * (i : ℚ)]]
           | SamNeoVersion.NEO2_SERIES =>
               [Cmd.scalar 0 (ml + (cv - ml) / 10 * (i : ℚ)) ActType.Vibrate,
                Cmd.scalar 1 (ml + (cva - ml) / 10 * (i : ℚ)) ActType.Constrict])
            ++ [Cmd.sleep (rd / 10)]),
          Except.ok ()) ∧
        ml + (cv - ml) / 10 * ((10 : ℕ) : ℚ) = cv ∧
        ml + (cva - ml) / 10 * ((10 : ℕ) : ℚ) = cva) := by
  intro dev ver cv cva ml rd hdev
  have hchain : ∀ x : ℚ, executeNeo2VacuumControl dev x =
      ([Cmd.scalar 1 x ActType.Constrict], Except.ok "Constrict") := by
    intro x
    simp [executeNeo2VacuumControl, neo2Approaches, tryApproaches, hdev]
  have h10 : (((10 : ℕ) : ℚ)) = 10 := by norm_num
  constructor
  · intro hrd
    subst hrd
    cases ver with
    | ORIGINAL => simp [extendedORestore, Proc.issue, hdev]
    | NEO2_SERIES => simp [extendedORestore, Proc.issue, hdev, hchain]
  · intro hrd
    refine ⟨?_, by push_cast; ring, by push_cast; ring⟩
    rw [extendedORestore.eq_def, if_neg hrd]
    dsimp only
    exact Proc.forList_eq _ _ _ (by
      intro i _
      cases ver with
      | ORIGINAL => simp [Proc.issue, hdev, h10]
      | NEO2_SERIES => simp [Proc.issue, hdev, hchain, h10])

/-- Witness for C9 under Legacy with pre-drop values (0.8, 0.7), floor
0.1: instant restore at `restoreDuration = 0`, and the ten-step
interpolation at `restoreDuration = 500` (steps separated by 50 ms). -/
theorem extendedORestore_spec_witness :
    extendedORestore (fun _ => none) SamNeoVersion.ORIGINAL (4/5) (7/10) (1/10) 0 =
      ([Cmd.vibrate [4/5, 7/10]], Except.ok ()) ∧
    extendedORestore (fun _ => none) SamNeoVersion.ORIGINAL (4/5) (7/10) (1/10) 500 =
      ((List.range' 1 10).flatMap (fun i =>
        [Cmd.vibrate [1/10 + (4/5 - 1/10) / 10 * (i : ℚ),
          1/10 + (7/10 - 1/10) / 10 * (i : ℚ)], Cmd.sleep (500 / 10)]),
        Except.ok ()) ∧
    (1 : ℚ)/10 + (4/5 - 1/10) / 10 * ((10 : ℕ) : ℚ) = 4/5 := by
  have h0 := extendedORestore_spec (fun _ => none) SamNeoVersion.ORIGINAL
    (4/5) (7/10) (1/10) 0 (fun _ => rfl)
  have h500 := extendedORestore_spec (fun _ => none) SamNeoVersion.ORIGINAL
    (4/5) (7/10) (1/10) 500 (fun _ => rfl)
  exact ⟨h0.1 rfl, (h500.2 (by norm_num)).1, (h500.2 (by norm_num)).2.1⟩

/-! ### C6 — failure during drop skips the restore -/

/-- C6 counterexample: with a device that rejects commands, the drop
phase's rejection propagates straight to the `catch`: the invocation's
whole trace is the single failed drop command `[0.1, 0.1]`; the restore
phase is never attempted — the pre-drop restore command `[0.8, 0.7]` is
not in the trace — contradicting the claim that phase 3 is still
attempted best-effort before the error propagates. -/
theorem extendedO_no_restore_on_failure :
    extendedOBody (fun _ => some "Device write failed") SamNeoVersion.ORIGINAL
        (4/5) (7/10) 10000 (1/10) 500 =
      ([Cmd.vibrate [1/10, 1/10]], Except.error "Device write failed") ∧
    Cmd.vibrate [4/5, 7/10] ∉ (extendedOBody (fun _ => some "Device write failed")
        SamNeoVersion.ORIGINAL (4/5) (7/10) 10000 (1/10) 500).1 := by
  have h : extendedOBody (fun _ => some "Device write failed") SamNeoVersion.ORIGINAL
      (4/5) (7/10) 10000 (1/10) 500 =
      ([Cmd.vibrate [1/10, 1/10]], Except.error "Device write failed") := rfl
  refine ⟨h, ?_⟩
  rw [h]
  simp only [List.mem_singleton]
  intro heq
  injection heq with h1
  exact absurd (List.cons.inj h1).1 (by norm_num)

/-- C6 (amended): when the device rejects the drop phase's first command,
the extended-hold invocation propagates the error immediately — the trace
consists of that single drop command and the restore phase (phase 3) is
not attempted at all. -/
theorem extendedO_drop_failure_aborts :
    ∀ (r : String) (ver : SamNeoVersion) (cv cva hd ml rd : ℚ),
      extendedOBody (fun _ => some r) ver cv cva hd ml rd =
        ((match ver with
          | SamNeoVersion.ORIGINAL => [Cmd.vibrate [ml, ml]]
          | SamNeoVersion.NEO2_SERIES => [Cmd.scalar 0 ml ActType.Vibrate]),
         Except.error r) := by
  intro r ver cv cva hd ml rd
  cases ver <;> simp [extendedOBody, extendedODrop, Proc.issue]

/-! ### C10 — channel values on the demoted Legacy-independent path -/

/-- C10: on the demoted Legacy-independent path every step `i` issues one
combined command whose vibration value is `(i/steps)·vibrationPower`,
while the vacuum value is the constant `vacuumIntensity` under the
'constant' and 'pulse' patterns and `sinpi(i/steps)·vacuumIntensity` under
'wave' (`sinpi` abstracts the library call `x ↦ Math.sin(x·π)`): the
vacuum channel never follows the shared step fraction, and 'pulse' is
literally the same execution as 'constant'. -/
theorem comboLegacyIndependent_channel_values :
    ∀ (sinpi : ℚ → ℚ) (dev : Dev) (dur : ℚ) (steps : ℕ) (vp vi : ℚ) (indep2 : Proc Unit),
      (∀ c, dev c = none) →
      (comboModeSection dev SamNeoVersion.ORIGINAL dur steps vp vi SyncMode.independent
          VacuumPattern.wave sinpi indep2 =
        ((List.range steps).flatMap (fun i =>
          [Cmd.vibrate [((i : ℚ) / steps) * vp, sinpi ((i : ℚ) / steps) * vi],
           Cmd.sleep (dur / steps)]), Except.ok ())) ∧
      (comboModeSection dev SamNeoVersion.ORIGINAL dur steps vp vi SyncMode.independent
          VacuumPattern.constant sinpi indep2 =
        ((List.range steps).flatMap (fun i =>
          [Cmd.vibrate [((i : ℚ) / steps) * vp, vi], Cmd.sleep (dur / steps)]),
          Except.ok ())) ∧
      (∀ dev2 : Dev,
        comboModeSection dev2 SamNeoVersion.ORIGINAL dur steps vp vi SyncMode.independent
            VacuumPattern.pulse sinpi indep2 =
          comboModeSection dev2 SamNeoVersion.ORIGINAL dur steps vp vi SyncMode.independent
            VacuumPattern.constant sinpi indep2) := by
  intro sinpi dev dur steps vp vi indep2 hdev
  refine ⟨?_, ?_, fun dev2 => rfl⟩
  · rw [comboModeSection]
    dsimp only
    exact Proc.forList_eq _ _ _ (by
      intro i _
      simp [executeOriginalComboControl, hdev, inv_mul_eq_div])
  · rw [comboModeSection]
    dsimp only
    exact Proc.forList_eq _ _ _ (by
      intro i _
      simp [executeOriginalComboControl, hdev, inv_mul_eq_div])

/-- Witness for C10 at 20 steps with full-scale channels on an accepting
device. -/
theorem comboLegacyIndependent_channel_values_witness :
    comboModeSection (fun _ => none) SamNeoVersion.ORIGINAL 1000 20 1 1
        SyncMode.independent VacuumPattern.constant (fun _ => 0) (Proc.ok ()) =
      ((List.range 20).flatMap (fun i =>
        [Cmd.vibrate [((i : ℚ) / 20) * 1, 1], Cmd.sleep (1000 / 20)]), Except.ok ()) ∧
    comboModeSection (fun _ => none) SamNeoVersion.ORIGINAL 1000 20 1 1
        SyncMode.independent VacuumPattern.pulse (fun _ => 0) (Proc.ok ()) =
      comboModeSection (fun _ => none) SamNeoVersion.ORIGINAL 1000 20 1 1
        SyncMode.independent VacuumPattern.constant (fun _ => 0) (Proc.ok ()) := by
  have h := comboLegacyIndependent_channel_values (fun _ => 0) (fun _ => none) 1000 20 1 1
    (Proc.ok ()) (fun _ => rfl)
  exact ⟨h.2.1, h.2.2 (fun _ => none)⟩

/-! ### C4 — demotion of Independent under Legacy -/

/-- C4 counterexample: under Legacy with policy `independent` the combo
handler completes the demoted sequential loop and returns the STANDARD
completion summary; the demotion warning exists only as a console log —
neither the console warning's text nor the word "Warning" (nor the word
"fallback") occurs anywhere in the response delivered to the caller,
refuting the claim that the response includes a fallback notice string. -/
theorem combo_demotion_response_lacks_notice :
    (comboToolHandler (fun _ => none) SamNeoVersion.ORIGINAL 1000 20 1 1
        SyncMode.independent VacuumPattern.constant (fun _ => 0) (Proc.ok ())).2 =
      "Combo stimulation completed - duration: 1000ms, steps: 20, vibration: 1, vacuum: 1, mode: independent, device: original" ∧
    ¬ ("using synchronized instead".toList <:+:
        (comboToolHandler (fun _ => none) SamNeoVersion.ORIGINAL 1000 20 1 1
          SyncMode.independent VacuumPattern.constant (fun _ => 0) (Proc.ok ())).2.toList) ∧
    ¬ ("Warning".toList <:+:
        (comboToolHandler (fun _ => none) SamNeoVersion.ORIGINAL 1000 20 1 1
          SyncMode.independent VacuumPattern.constant (fun _ => 0) (Proc.ok ())).2.toList) ∧
    ¬ ("fallback".toList <:+:
        (comboToolHandler (fun _ => none) SamNeoVersion.ORIGINAL 1000 20 1 1
          SyncMode.independent VacuumPattern.constant (fun _ => 0) (Proc.ok ())).2.toList) :=
  ⟨rfl, by decide, by decide, by decide⟩

/-- C4 (amended): under Legacy an `independent` request is demoted to a
single sequential loop of combined two-channel commands on the shared step
cadence, followed by the combined stop; a warning goes to the console
only, and the response returned to the caller is the standard completion
summary (which carries no fallback notice — see the counterexample). -/
theorem combo_legacy_independent_demotes :
    ∀ (sinpi : ℚ → ℚ) (dev : Dev) (dur : ℚ) (steps : ℕ) (vp vi : ℚ)
      (vpat : VacuumPattern) (indep2 : Proc Unit),
      (∀ c, dev c = none) →
      comboToolHandler dev SamNeoVersion.ORIGINAL dur steps vp vi SyncMode.independent
          vpat sinpi indep2 =
        ((comboModeSection dev SamNeoVersion.ORIGINAL dur steps vp vi SyncMode.independent
            vpat sinpi indep2).1 ++ [Cmd.vibrate [0, 0]],
          comboSuccessText dur steps vp vi SyncMode.independent SamNeoVersion.ORIGINAL) ∧
      (comboModeSection dev SamNeoVersion.ORIGINAL dur steps vp vi SyncMode.independent
          vpat sinpi indep2).2 = Except.ok () := by
  intro sinpi dev dur steps vp vi vpat indep2 hdev
  have hstop : comboStopSection dev SamNeoVersion.ORIGINAL =
      ([Cmd.vibrate [0, 0]], Except.ok ()) := by
    simp [comboStopSection, Proc.issue, hdev]
  have hsec : ∃ tr, comboModeSection dev SamNeoVersion.ORIGINAL dur steps vp vi
      SyncMode.independent vpat sinpi indep2 = (tr, Except.ok ()) := by
    rw [comboModeSection]
    dsimp only
    exact ⟨_, Proc.forList_eq (List.range steps) _ (fun (i : ℕ) =>
      [Cmd.vibrate [((i : ℚ) / steps) * vp,
        (match vpat with
         | VacuumPattern.wave => sinpi ((i : ℚ) / steps) * vi
         | _ => vi)],
       Cmd.sleep (dur / steps)]) (by
      intro i _
      cases vpat <;> simp [executeOriginalComboControl, hdev, inv_mul_eq_div])⟩
  obtain ⟨tr, hsec⟩ := hsec
  have hbody : comboToolBody dev SamNeoVersion.ORIGINAL dur steps vp vi
      SyncMode.independent vpat sinpi indep2 =
      (tr ++ [Cmd.vibrate [0, 0]], Except.ok ()) := by
    rw [comboToolBody, hsec, hstop]
    simp
  constructor
  · rw [comboToolHandler, hbody, hsec]
  · rw [hsec]

/-- Witness for C4's amended theorem on an accepting device, 20 steps,
constant vacuum pattern. -/
theorem combo_legacy_independent_demotes_witness :
    comboToolHandler (fun _ => none) SamNeoVersion.ORIGINAL 1000 20 1 1
        SyncMode.independent VacuumPattern.constant (fun _ => 0) (Proc.ok ()) =
      ((comboModeSection (fun _ => none) SamNeoVersion.ORIGINAL 1000 20 1 1
          SyncMode.independent VacuumPattern.constant (fun _ => 0) (Proc.ok ())).1
          ++ [Cmd.vibrate [0, 0]],
        comboSuccessText 1000 20 1 1 SyncMode.independent SamNeoVersion.ORIGINAL) :=
  (combo_legacy_independent_demotes (fun _ => 0) (fun _ => none) 1000 20 1 1
    VacuumPattern.constant (Proc.ok ()) (fun _ => rfl)).1

/-! ### C1 — the stop obligation on exit paths -/

/-- C1 (amended): on the normal-completion exit path the stop IS issued —
the vacuum tool's trace ends with a successful zero-intensity dispatch,
the combo tool's trace ends with the (successful) per-profile stop-all
section, and the piston tool's trace ends with an accepted halt command.
An invocation that ends in an error, however, returns without any stop:
the `catch` handlers issue no device command (see the counterexample). -/
theorem stop_issued_on_normal_completion :
    ∀ (dev : Dev) (ver : SamNeoVersion),
      (∀ (i d pi : ℚ) (pat : VacuumPattern) (a : String),
        (vacuumToolBody dev ver i d pat pi).2 = Except.ok a →
        ∃ pre lbl, (vacuumToolBody dev ver i d pat pi).1 =
            pre ++ (executeVacuumControl dev ver 0).1 ∧
          (executeVacuumControl dev ver 0).2 = Except.ok lbl) ∧
      (∀ (dur : ℚ) (steps : ℕ) (vp vi : ℚ) (m : SyncMode) (vpat : VacuumPattern)
          (sinpi : ℚ → ℚ) (indep2 : Proc Unit),
        (comboToolBody dev ver dur steps vp vi m vpat sinpi indep2).2 = Except.ok () →
        ∃ pre, (comboToolBody dev ver dur steps vp vi m vpat sinpi indep2).1 =
            pre ++ (comboStopSection dev ver).1 ∧
          (comboStopSection dev ver).2 = Except.ok ()) ∧
      (∀ (dur : ℚ) (steps : ℕ) (vp : ℚ),
        (pistonBody dev ver dur steps vp).2 = Except.ok () →
        ∃ pre, (pistonBody dev ver dur steps vp).1 = pre ++ [Cmd.stop] ∧
          dev Cmd.stop = none) := by
  intro dev ver
  refine ⟨?_, ?_, ?_⟩
  · intro i d pi pat a h
    obtain ⟨ap, hP, hrest, htr⟩ := Proc.bind_ok_inv (x := vacuumPatternSection dev ver i d pi pat)
      (f := fun a => Proc.bind (executeVacuumControl dev ver 0) (fun _ => Proc.ok a)) h
    obtain ⟨lbl, hS, hok, htr2⟩ := Proc.bind_ok_inv hrest
    refine ⟨(vacuumPatternSection dev ver i d pi pat).1, lbl, ?_, hS⟩
    have htr3 : (vacuumToolBody dev ver i d pat pi).1 =
        (vacuumPatternSection dev ver i d pi pat).1 ++
          (Proc.bind (executeVacuumControl dev ver 0) (fun _ => Proc.ok ap)).1 := htr
    rw [htr3, htr2]
    simp
  · intro dur steps vp vi m vpat sinpi indep2 h
    obtain ⟨u, hM, hrest, htr⟩ := Proc.bind_ok_inv
      (x := comboModeSection dev ver dur steps vp vi m vpat sinpi indep2)
      (f := fun _ => Proc.bind (comboStopSection dev ver) (fun _ => Proc.ok ())) h
    obtain ⟨u2, hS, hok, htr2⟩ := Proc.bind_ok_inv hrest
    refine ⟨(comboModeSection dev ver dur steps vp vi m vpat sinpi indep2).1, ?_, ?_⟩
    · have htr3 : (comboToolBody dev ver dur steps vp vi m vpat sinpi indep2).1 =
          (comboModeSection dev ver dur steps vp vi m vpat sinpi indep2).1 ++
            (Proc.bind (comboStopSection dev ver) (fun _ => Proc.ok ())).1 := htr
      rw [htr3, htr2]
      simp
    · rw [hS]
  · intro dur steps vp h
    obtain ⟨u, hL, hrest, htr⟩ := Proc.bind_ok_inv
      (f := fun _ => Proc.bind (Proc.issue dev Cmd.stop) (fun _ => Proc.ok ())) h
    obtain ⟨u2, hS, hok, htr2⟩ := Proc.bind_ok_inv hrest
    have hstop : dev Cmd.stop = none := by
      by_contra hne
      obtain ⟨r, hr⟩ := Option.ne_none_iff_exists.mp hne
      rw [Proc.issue_of_some hr.symm] at hS
      exact Except.noConfusion hS
    have htr4 := htr.trans (by rw [htr2, Proc.issue_of_none hstop])
    exact ⟨_, htr4, hstop⟩

/-- Witness for C1's amended theorem: on an accepting Legacy device all
three bodies complete and each ends with its stop. -/
theorem stop_issued_on_normal_completion_witness :
    (∃ pre lbl, (vacuumToolBody (fun _ => none) SamNeoVersion.ORIGINAL 1 1000
        VacuumPattern.constant 500).1 =
          pre ++ (executeVacuumControl (fun _ => none) SamNeoVersion.ORIGINAL 0).1 ∧
      (executeVacuumControl (fun _ => none) SamNeoVersion.ORIGINAL 0).2 = Except.ok lbl) ∧
    (∃ pre, (comboToolBody (fun _ => none) SamNeoVersion.ORIGINAL 1000 20 1 1
        SyncMode.synchronized VacuumPattern.constant (fun _ => 0) (Proc.ok ())).1 =
          pre ++ (comboStopSection (fun _ => none) SamNeoVersion.ORIGINAL).1 ∧
      (comboStopSection (fun _ => none) SamNeoVersion.ORIGINAL).2 = Except.ok ()) ∧
    (∃ pre, (pistonBody (fun _ => none) SamNeoVersion.ORIGINAL 1000 20 1).1 =
        pre ++ [Cmd.stop] ∧ (fun _ => none : Dev) Cmd.stop = none) := by
  have h := stop_issued_on_normal_completion (fun _ => none) SamNeoVersion.ORIGINAL
  exact ⟨h.1 1 1000 500 VacuumPattern.constant "OriginalVibrate" rfl,
    h.2.1 1000 20 1 1 SyncMode.synchronized VacuumPattern.constant (fun _ => 0)
      (Proc.ok ()) rfl,
    h.2.2 1000 20 1 rfl⟩

/-- C1 counterexample: a Legacy vacuum invocation on a rejecting device
ends in an error and its trace contains NO stop of any kind — not the
combined stop-all `[0,0]`, not a halt, and no zero-intensity dispatch: the
only command ever issued is the initial intensity set `[0, 1/2]`.  The
error exit path therefore does not issue the stop. -/
theorem stop_missing_on_error_exit :
    vacuumToolBody (fun _ => some "write failed") SamNeoVersion.ORIGINAL (1/2) 1000
        VacuumPattern.constant 500 =
      ([Cmd.vibrate [0, 1/2]], Except.error "Original Sam Neo vacuum control failed") ∧
    Cmd.vibrate [0, 0] ∉ (vacuumToolBody (fun _ => some "write failed")
        SamNeoVersion.ORIGINAL (1/2) 1000 VacuumPattern.constant 500).1 ∧
    Cmd.stop ∉ (vacuumToolBody (fun _ => some "write failed")
        SamNeoVersion.ORIGINAL (1/2) 1000 VacuumPattern.constant 500).1 := by
  have h : vacuumToolBody (fun _ => some "write failed") SamNeoVersion.ORIGINAL (1/2) 1000
      VacuumPattern.constant 500 =
      ([Cmd.vibrate [0, 1/2]], Except.error "Original Sam Neo vacuum control failed") := rfl
  refine ⟨h, ?_, ?_⟩
  · rw [h]
    simp only [List.mem_singleton]
    intro heq
    injection heq with h1
    have h2 := (List.cons.inj h1).2
    exact absurd (List.cons.inj h2).1 (by norm_num)
  · rw [h]
    simp

end SamNeo
